import Mathlib

/-!
Verification of the elm-sscce-tests suite runner core (`src/lib/suite.rs`)
against its natural-language specification.

The Rust core is shallowly embedded: external effects (filesystem checks,
`which` resolution, process invocation) are supplied as explicit inputs,
and each Rust function becomes a pure Lean function over those inputs.
Process-fatal panics (`expect` on `remove_dir_all` / temp-dir creation)
abort the whole process in the source and are outside the `Except`-valued
model, as are logging side effects (`debug!`, `println!`).
-/

namespace ElmTorture

/-- A filesystem path, identified by its textual form. -/
abbrev Path := String

/-- Rust `std::process::Output`: exit status plus captured streams.
`status` is the exit code; `status.success()` is `status == 0`. -/
structure Output where
  status : Nat
  stdout : String
  stderr : String
deriving DecidableEq, Repr

/-- Rust `res.status.success()`. -/
def Output.success (o : Output) : Bool := o.status == 0

/-- `CompileError` from `suite.rs` (payloads of external error types elided). -/
inductive CompileError where
  | CompilerNotFound
  | Process
  | Compiler (res : Output)
  | CompilerStdErrNotEmpty (res : Output)
  | ReadingTargets
  | SuiteDoesNotExist
  | OutDirIsNotDir
deriving DecidableEq, Repr

/-- `RunError` from `suite.rs` (payloads of external error types elided). -/
inductive RunError where
  | NodeNotFound
  | SuiteDoesNotExist
  | NodeProcess
  | WritingHarness
  | CopyingExpectedOutput
  | Runtime (res : Output)
  | CannotFindExpectedOutput
  | ExpectedOutputNotUtf8
  | OutputProduced (res : Output)
deriving DecidableEq, Repr

/-- `OutDir<P>` from `suite.rs`: tri-state ownership of the build-output
directory.  A `tempfile::TempDir` is represented by its path. -/
inductive OutDir (P : Type) where
  | Provided (p : P)
  | Tempory (t : Path)
  | Persistent (p : Path)
deriving DecidableEq, Repr

/-- `OutDir::path`; `toPath` plays the role of `P: AsRef<Path>`. -/
def OutDir.path {P : Type} (toPath : P → Path) : OutDir P → Path
  | .Provided p => toPath p
  | .Tempory t => t
  | .Persistent p => p

/-- `OutDir::persist`: `Tempory(tempdir)` becomes
`Persistent(tempdir.into_path())` (the same path, deletion disabled);
every other variant is returned unchanged. -/
def OutDir.persist {P : Type} : OutDir P → OutDir P
  | .Tempory t => .Persistent t
  | od => od

/-- `CompileAndRunError<P>` from `suite.rs`. -/
inductive CompileAndRunError (P : Type) where
  | SuiteNotExist
  | SuiteNotDir
  | SuiteNotElm
  | CompileFailure (allowed : Bool) (reason : CompileError)
  | RunFailure (allowed : Bool) (outdir : OutDir P) (reason : RunError)
  | ExpectedFailure
deriving DecidableEq, Repr

/-- The per-invocation configuration (`config.rs` fields used by `suite.rs`). -/
structure Config where
  elm_compiler : String
  node : String
  args : List String
  allowed_failures : List Path

/-- `cli::Instructions` fields used by `suite.rs`. -/
structure Instructions where
  config : Config
  fail_fast : Bool
  clear_elm_stuff : Bool

/-! ### The run step (`suite::run`) -/

/-- Outcome of the three-phase read of `output.json` in `run`:
`File::open` (any open error maps to `CannotFindExpectedOutput`),
`read_to_end` (`CopyingExpectedOutput`), `String::from_utf8`
(`ExpectedOutputNotUtf8`). -/
inductive FileRead where
  | openFailed
  | readFailed
  | notUtf8
  | content (s : String)
deriving DecidableEq, Repr

/-- The world `run` interacts with: each field is the outcome of one
external operation, in the order the source performs them. -/
structure RunEnv where
  /-- `suite.join("elm.json").exists()` -/
  elmJsonExists : Bool
  /-- `which::which(&config.node)` succeeded -/
  nodeFound : Bool
  /-- reading `output.json` -/
  expectedOutput : FileRead
  /-- `fs::write(&out_file, ...)` succeeded -/
  harnessWriteOk : Bool
  /-- `Command::new(node_exe)...output()`: launch error or captured output -/
  invoke : Except Unit Output

/-- The `possible_stderr` closure in `run`: the benign optimization
notice for a given build mode. -/
def possible_stderr (mode : String) : String :=
  "Compiled in " ++ mode ++
    " mode. Follow the advice at https://elm-lang.org/0.19.1/optimize for better performance and smaller assets.\n"

/-- `suite::run`, with the external world supplied by `env`. -/
def run (env : RunEnv) : Except RunError Unit :=
  if env.elmJsonExists = false then .error .SuiteDoesNotExist
  else if env.nodeFound = false then .error .NodeNotFound
  else match env.expectedOutput with
  | .openFailed => .error .CannotFindExpectedOutput
  | .readFailed => .error .CopyingExpectedOutput
  | .notUtf8 => .error .ExpectedOutputNotUtf8
  | .content _expected =>
    if env.harnessWriteOk = false then .error .WritingHarness
    else match env.invoke with
    | .error _ => .error .NodeProcess
    | .ok res =>
      if res.success = false then .error (.Runtime res)
      else if res.stdout ≠ "" then .error (.OutputProduced res)
      else if res.stderr ≠ "" ∧ res.stderr ≠ possible_stderr "DEV"
          ∧ res.stderr ≠ possible_stderr "DEBUG" then
        .error (.OutputProduced res)
      else .ok ()

/-! ### The compile step (`suite::compile`) -/

/-- Rust `str::split(sep)` over the characters of a string: `n`
separators yield `n + 1` pieces, empty pieces included. -/
def rustSplit (sep : Char) : List Char → List (List Char)
  | [] => [[]]
  | c :: cs =>
    if c = sep then [] :: rustSplit sep cs
    else match rustSplit sep cs with
      | [] => [[c]]
      | p :: ps => (c :: p) :: ps

/-- `contents.split('\n').map(String::from).collect()` in `compile`. -/
def splitLines (s : String) : List String :=
  (rustSplit '\n' s.data).map List.asString

/-- Lines 74–82 of `suite.rs`: resolve the `root_files` list.
`targetsFile = none` models `File::open(suite.join("targets.txt"))`
failing (the manifest is absent); `some (.error ())` models a successful
open whose `read_to_string` fails; `some (.ok contents)` a successful
read. -/
def resolveRootFiles (targetsFile : Option (Except Unit String)) :
    Except CompileError (List String) :=
  match targetsFile with
  | some (.error _) => .error .ReadingTargets
  | some (.ok contents) => .ok (splitLines contents)
  | none => .ok [("Main.elm" : String)]

/-- The argument list built for the compiler invocation:
`make`, the root files, the configured extra args, `--output`, and the
canonicalized output path joined with `elm.js`. -/
def compileArgs (root_files : List String) (configArgs : List String)
    (outputPath : Path) : List String :=
  ["make"] ++ root_files ++ configArgs ++ ["--output", outputPath]

/-- The world `compile` interacts with: one field per external
operation, in source order.  `invoke` maps the full argument list to the
invocation result, so the arguments actually passed are observable. -/
structure CompileEnv where
  /-- `out_dir.exists()` -/
  outDirExists : Bool
  /-- `out_dir.is_dir()` -/
  outDirIsDir : Bool
  /-- `suite.join("elm.json").exists()` -/
  elmJsonExists : Bool
  /-- opening and reading `targets.txt`, see `resolveRootFiles` -/
  targetsFile : Option (Except Unit String)
  /-- `which::which(&config.elm_compiler)` succeeded -/
  compilerFound : Bool
  /-- `fs::canonicalize(out_dir)` -/
  canonicalOutDir : Except Unit Path
  /-- `command.output()`: launch error or captured output, as a function
  of the argument list passed to the command -/
  invoke : List String → Except Unit Output

/-- Post-invocation validation in `compile` (lines 102–112):
launch failure → `Process`; non-zero exit → `Compiler`; non-empty
stderr → `CompilerStdErrNotEmpty`. -/
def compilePostInvocation (r : Except Unit Output) : Except CompileError Unit :=
  match r with
  | .error _ => .error .Process
  | .ok res =>
    if res.success = false then .error (.Compiler res)
    else if res.stderr ≠ "" then .error (.CompilerStdErrNotEmpty res)
    else .ok ()

/-- `suite::compile`, with the external world supplied by `env`.
The `ELM_HOME` passthrough is an environment side effect with no bearing
on the returned value and is not modelled. -/
def compile (env : CompileEnv) (config : Config) : Except CompileError Unit :=
  if env.outDirExists = true ∧ env.outDirIsDir = false then .error .OutDirIsNotDir
  else if env.elmJsonExists = false then .error .SuiteDoesNotExist
  else match resolveRootFiles env.targetsFile with
  | .error e => .error e
  | .ok root_files =>
    if env.compilerFound = false then .error .CompilerNotFound
    else match env.canonicalOutDir with
    | .error _ => .error .Process
    | .ok canon =>
      compilePostInvocation
        (env.invoke (compileArgs root_files config.args (canon ++ "/elm.js")))

/-! ### The suite orchestrator (`suite::compile_and_run`) -/

/-- Filesystem facts the orchestrator queries directly. -/
structure World where
  /-- `path.exists()` -/
  pathExists : Path → Bool
  /-- `path.is_dir()` -/
  isDir : Path → Bool
  /-- `same_file::is_same_file(a, b)` (the error case panics in the
  source and is outside the model) -/
  sameFile : Path → Path → Bool

/-- `Path::join`. -/
def joinPath (a b : Path) : Path := a ++ "/" ++ b

/-- Lines 219–232 of `suite.rs`: `failure_allowed` is true when some
configured allowed-failure path exists on disk and is the same file as
the suite. -/
def failureAllowed (w : World) (suite : Path) (config : Config) : Bool :=
  config.allowed_failures.any fun p => w.pathExists p && w.sameFile suite p

/-- `suite::compile_and_run`.  `tempDirName` is the path of the fresh
temp directory created when no output directory is provided;
`compileRes` and `runRes` are the outcomes the world gives to the
`compile` and `run` calls on this suite (the source calls
`suite::compile` / `suite::run`, whose results these parameters stand
for).  The `clear_elm_stuff` deletion either succeeds silently or
panics, so it does not influence the returned value. -/
def compile_and_run {P : Type} (w : World) (suite : Path)
    (provided_out_dir : Option P) (instructions : Instructions)
    (tempDirName : Path)
    (compileRes : Except CompileError Unit)
    (runRes : Except RunError Unit) :
    Except (CompileAndRunError P) Unit :=
  if w.pathExists suite = false then .error .SuiteNotExist
  else if w.isDir suite = false then .error .SuiteNotDir
  else if w.pathExists (joinPath suite "elm.json") = false then .error .SuiteNotElm
  else
    let failure_allowed := failureAllowed w suite instructions.config
    let out_dir : OutDir P := match provided_out_dir with
      | some dir => .Provided dir
      | none => .Tempory tempDirName
    match compileRes with
    | .error e => .error (.CompileFailure failure_allowed e)
    | .ok _ =>
      match runRes with
      | .error e => .error (.RunFailure failure_allowed out_dir.persist e)
      | .ok _ =>
        if failure_allowed = true then .error .ExpectedFailure
        else .ok ()

/-! ### The batch runner (`suite::compile_and_run_suites`) -/

/-- Lines 303–308 of `suite.rs`: the `failed` flag computed for one
suite's result. -/
def suiteFailed {P : Type} : Except (CompileAndRunError P) Unit → Bool
  | .error (.CompileFailure true _) => false
  | .error (.RunFailure true _ _) => false
  | .ok _ => false
  | .error _ => true

/-- `suite::compile_and_run_suites`: map each suite to its result paired
with its `failed` flag, `take_while` the fail-fast predicate holds, then
project the pairs.  `outcome` gives each suite's `compile_and_run`
result.  Rust's `take_while` consumes, but does not yield, the first
element whose predicate is false — `List.takeWhile` matches this. -/
def compile_and_run_suites {P : Type} (instructions : Instructions)
    (outcome : Path → Except (CompileAndRunError P) Unit)
    (suites : List Path) : List (Path × Except (CompileAndRunError P) Unit) :=
  ((suites.map fun suite =>
      let res := outcome suite
      ((suite, res), suiteFailed res)
    ).takeWhile fun x => !(instructions.fail_fast && x.2)
   ).map Prod.fst

/-! ### Spec-worded comparison definition and concrete sample values -/

/-- The fail-fast flag as the specification words it, for comparison
with the source's `suiteFailed`: true exactly for a `CompileFailure` or
`RunFailure` whose `allowed` flag is false. -/
def specFailedFlag {P : Type} : Except (CompileAndRunError P) Unit → Bool
  | .error (.CompileFailure false _) => true
  | .error (.RunFailure false _ _) => true
  | _ => false

/-- The amended fail-fast flag: an allowed `CompileFailure` or
`RunFailure` does not count as failed; every other error — including
`ExpectedFailure` and the suite-validation errors — does. -/
def amendedFailedFlag {P : Type} : Except (CompileAndRunError P) Unit → Bool
  | .ok _ => false
  | .error (.CompileFailure a _) => !a
  | .error (.RunFailure a _ _) => !a
  | .error _ => true

/-- A world where every path exists, every path is a directory, and two
paths are the same file exactly when they are equal. -/
def wSample : World := ⟨fun _ => true, fun _ => true, fun a b => a == b⟩

/-- A configuration with no allowed failures and no extra args. -/
def cfgPlain : Config := ⟨"elm", "node", [], []⟩

/-- A configuration marking `suiteA` as an allowed failure. -/
def cfgAllowed : Config := ⟨"elm", "node", [], ["suiteA"]⟩

/-- Instructions with fail-fast enabled. -/
def instrFF : Instructions := ⟨cfgPlain, true, false⟩

/-- Instructions with fail-fast disabled. -/
def instrNoFF : Instructions := ⟨cfgPlain, false, false⟩

/-- Instructions marking `suiteA` as an allowed failure. -/
def instrAllowed : Instructions := ⟨cfgAllowed, true, false⟩

/-- Per-suite outcomes where suite `A` hits a non-allowed compile
failure and every other suite passes. -/
def outcomeABC : Path → Except (CompileAndRunError Path) Unit := fun s =>
  if s = "A" then .error (.CompileFailure false .SuiteDoesNotExist)
  else .ok ()

/-- A compile environment whose `targets.txt` opens but fails to read. -/
def sampleCompileEnvReadErr : CompileEnv :=
  ⟨true, true, true, some (.error ()), true, .ok "/c", fun _ => .ok ⟨0, "", ""⟩⟩

/-- A compile environment whose `targets.txt` reads as `"a\n"`. -/
def sampleCompileEnvTargets : CompileEnv :=
  ⟨true, true, true, some (.ok "a\n"), true, .ok "/c", fun _ => .ok ⟨0, "", ""⟩⟩

/-! ### Helper lemmas -/

theorem rustSplit_ne_nil (sep : Char) (l : List Char) : rustSplit sep l ≠ [] := by
  induction l with
  | nil => simp [rustSplit]
  | cons c cs ih =>
    simp only [rustSplit]
    split
    · simp
    · split <;> simp

theorem rustSplit_append (sep : Char) (xs ys : List Char) :
    rustSplit sep (xs ++ sep :: ys) = rustSplit sep xs ++ rustSplit sep ys := by
  induction xs with
  | nil => simp [rustSplit]
  | cons c cs ih =>
    by_cases hc : c = sep
    · simp only [List.cons_append, rustSplit, if_pos hc, List.append_eq, ih]
    · obtain ⟨p, ps, hps⟩ : ∃ p ps, rustSplit sep cs = p :: ps := by
        cases h : rustSplit sep cs with
        | nil => exact absurd h (rustSplit_ne_nil sep cs)
        | cons p ps => exact ⟨p, ps, rfl⟩
      simp only [List.cons_append, rustSplit, if_neg hc, List.append_eq, ih, hps]

theorem empty_mem_splitLines (s : String)
    (h : (∃ xs, s.data = xs ++ ['\n']) ∨
      ∃ xs ys, s.data = xs ++ '\n' :: '\n' :: ys) :
    "" ∈ splitLines s := by
  unfold splitLines
  rcases h with ⟨xs, hxs⟩ | ⟨xs, ys, hxs⟩
  · rw [hxs, show xs ++ ['\n'] = xs ++ '\n' :: ([] : List Char) from rfl,
      rustSplit_append]
    exact List.mem_map.mpr ⟨[], by simp [rustSplit], rfl⟩
  · rw [hxs, show xs ++ '\n' :: '\n' :: ys = xs ++ '\n' :: ('\n' :: ys) from rfl,
      rustSplit_append]
    refine List.mem_map.mpr ⟨[], ?_, rfl⟩
    simp [rustSplit]

/-! ### Claim theorems -/

/-- **C8.** `OutDir` promotion is idempotent: `persist` twice leaves the
same state and path as once; a `Tempory` becomes `Persistent` keeping
the same path as reported by `path()`; `persist` on a `Provided`
directory is a no-op that leaves the variant and the caller's path
unchanged. -/
theorem persist_idempotent (P : Type) (toPath : P → Path) (d : OutDir P)
    (t : Path) (p : P) :
    d.persist.persist = d.persist
    ∧ (OutDir.Tempory t : OutDir P).persist = OutDir.Persistent t
    ∧ (OutDir.Tempory t : OutDir P).persist.path toPath
        = (OutDir.Tempory t : OutDir P).path toPath
    ∧ (OutDir.Provided p).persist = OutDir.Provided p
    ∧ (OutDir.Provided p).persist.path toPath = toPath p := by
  refine ⟨?_, rfl, rfl, rfl, rfl⟩
  cases d <;> rfl

/-- **C4.** A suite marked as an allowed failure whose compile and run
steps both succeed is classified `ExpectedFailure`, never as success. -/
theorem allowed_pass_is_expected_failure (P : Type) (w : World) (suite : Path)
    (pd : Option P) (instructions : Instructions) (temp : Path)
    (hex : w.pathExists suite = true) (hdir : w.isDir suite = true)
    (helm : w.pathExists (joinPath suite "elm.json") = true)
    (hallow : failureAllowed w suite instructions.config = true) :
    compile_and_run w suite pd instructions temp (.ok ()) (.ok ())
      = .error .ExpectedFailure
    ∧ compile_and_run w suite pd instructions temp (.ok ()) (.ok ())
      ≠ .ok () := by
  unfold compile_and_run
  simp [hex, hdir, helm, hallow]

/-- **C6.** If the compile step fails, the orchestrator classifies the
suite as `CompileFailure` with the precomputed `allowed` flag and the
compile error, and the run step is never invoked: the result is the
same for every possible run outcome. -/
theorem compile_failure_short_circuits (P : Type) (w : World) (suite : Path)
    (pd : Option P) (instructions : Instructions) (temp : Path)
    (ce : CompileError) (runRes : Except RunError Unit)
    (hex : w.pathExists suite = true) (hdir : w.isDir suite = true)
    (helm : w.pathExists (joinPath suite "elm.json") = true) :
    compile_and_run w suite pd instructions temp (.error ce) runRes
      = .error (.CompileFailure (failureAllowed w suite instructions.config) ce)
    ∧ ∀ runRes' : Except RunError Unit,
        compile_and_run w suite pd instructions temp (.error ce) runRes
          = compile_and_run w suite pd instructions temp (.error ce) runRes' := by
  constructor
  · unfold compile_and_run
    simp [hex, hdir, helm]
  · intro runRes'
    unfold compile_and_run
    simp [hex, hdir, helm]

/-- **C7.** The output-directory lifecycle: a `Tempory` is promoted to
`Persistent` exactly on the run-failure path and the promoted directory
(same path) is attached to the `RunFailure` outcome; a `Provided`
directory stays `Provided` there; on a compile failure or a successful
pipeline the outcome carries no directory (no promotion occurs); a
`Persistent` never reverts, and a `Provided` never changes variant. -/
theorem outdir_lifecycle (P : Type) (w : World) (suite : Path)
    (pd : Option P) (instructions : Instructions) (temp : Path) (d : P)
    (e : RunError) (ce : CompileError) (q : Path)
    (hex : w.pathExists suite = true) (hdir : w.isDir suite = true)
    (helm : w.pathExists (joinPath suite "elm.json") = true) :
    compile_and_run w suite (none : Option P) instructions temp (.ok ()) (.error e)
      = .error (.RunFailure (failureAllowed w suite instructions.config)
          (OutDir.Persistent temp) e)
    ∧ compile_and_run w suite (some d) instructions temp (.ok ()) (.error e)
      = .error (.RunFailure (failureAllowed w suite instructions.config)
          (OutDir.Provided d) e)
    ∧ compile_and_run w suite pd instructions temp (.error ce) (.error e)
      = .error (.CompileFailure (failureAllowed w suite instructions.config) ce)
    ∧ compile_and_run w suite pd instructions temp (.ok ()) (.ok ())
      = (if failureAllowed w suite instructions.config = true
          then .error .ExpectedFailure else .ok ())
    ∧ (OutDir.Persistent q : OutDir P).persist = OutDir.Persistent q
    ∧ (OutDir.Provided d).persist = OutDir.Provided d := by
  refine ⟨?_, ?_, ?_, ?_, rfl, rfl⟩ <;>
    · unfold compile_and_run
      simp [hex, hdir, helm, OutDir.persist]

/-- **C3 (counterexample).** A runtime invocation with non-zero exit
status and non-empty stdout yields `Runtime`, not `OutputProduced`: the
exit-status check precedes the stdout check, so `UnexpectedOutputProduced`
is not returned regardless of exit status. -/
theorem nonzero_exit_beats_stdout_check :
    run ⟨true, true, .content "{}", true, .ok ⟨1, "x", ""⟩⟩
      = .error (.Runtime ⟨1, "x", ""⟩)
    ∧ run ⟨true, true, .content "{}", true, .ok ⟨1, "x", ""⟩⟩
      ≠ .error (.OutputProduced ⟨1, "x", ""⟩) := by
  refine ⟨rfl, ?_⟩
  intro h
  rw [show run ⟨true, true, .content "{}", true, .ok ⟨1, "x", ""⟩⟩
      = .error (.Runtime ⟨1, "x", ""⟩) from rfl] at h
  simp at h

/-- **C3 (amended).** For every runtime invocation that exits
successfully, a non-empty captured stdout makes the run step return
`OutputProduced`; on a non-zero exit the `Runtime` error takes
precedence instead. -/
theorem stdout_nonempty_is_output_produced (env : RunEnv) (res : Output)
    (s : String)
    (h1 : env.elmJsonExists = true) (h2 : env.nodeFound = true)
    (h3 : env.expectedOutput = .content s) (h4 : env.harnessWriteOk = true)
    (h5 : env.invoke = .ok res)
    (h6 : res.success = true) (h7 : res.stdout ≠ "") :
    run env = .error (.OutputProduced res) := by
  simp [run, h1, h2, h3, h4, h5, h6, h7]

theorem stdout_nonempty_is_output_produced_witness :
    ((⟨0, "out", ""⟩ : Output).success = true ∧ ("out" : String) ≠ "")
    ∧ run ⟨true, true, .content "{}", true, .ok ⟨0, "out", ""⟩⟩
        = .error (.OutputProduced ⟨0, "out", ""⟩) :=
  ⟨⟨rfl, by decide⟩,
    stdout_nonempty_is_output_produced
      ⟨true, true, .content "{}", true, .ok ⟨0, "out", ""⟩⟩
      ⟨0, "out", ""⟩ "{}" rfl rfl rfl rfl rfl rfl (by decide)⟩

/-- **C5.** For a runtime invocation that exits successfully with empty
stdout, the run step succeeds exactly when stderr is empty or equal to
one of the two literal benign-optimization notices (DEV / DEBUG); any
other non-empty stderr yields `OutputProduced`. -/
theorem stderr_allowlist (env : RunEnv) (res : Output) (s : String)
    (h1 : env.elmJsonExists = true) (h2 : env.nodeFound = true)
    (h3 : env.expectedOutput = .content s) (h4 : env.harnessWriteOk = true)
    (h5 : env.invoke = .ok res)
    (h6 : res.success = true) (h7 : res.stdout = "") :
    (run env = .ok () ↔
      (res.stderr = "" ∨ res.stderr = possible_stderr "DEV"
        ∨ res.stderr = possible_stderr "DEBUG"))
    ∧ (res.stderr ≠ "" → res.stderr ≠ possible_stderr "DEV" →
        res.stderr ≠ possible_stderr "DEBUG" →
        run env = .error (.OutputProduced res)) := by
  have hrun : run env =
      if res.stderr ≠ "" ∧ res.stderr ≠ possible_stderr "DEV"
          ∧ res.stderr ≠ possible_stderr "DEBUG"
      then .error (.OutputProduced res) else .ok () := by
    simp [run, h1, h2, h3, h4, h5, h6, h7]
  constructor
  · rw [hrun]
    by_cases hne : res.stderr = ""
    · simp [hne]
    · by_cases hdev : res.stderr = possible_stderr "DEV"
      · simp [hne, hdev]
      · by_cases hdb : res.stderr = possible_stderr "DEBUG"
        · simp [hne, hdev, hdb]
        · simp [hne, hdev, hdb]
  · intro hne hdev hdb
    rw [hrun]
    simp [hne, hdev, hdb]

theorem stderr_allowlist_witness :
    ((⟨0, "", possible_stderr "DEV"⟩ : Output).success = true
      ∧ (⟨0, "", possible_stderr "DEV"⟩ : Output).stdout = "")
    ∧ run ⟨true, true, .content "{}", true,
        .ok ⟨0, "", possible_stderr "DEV"⟩⟩ = .ok () :=
  ⟨⟨rfl, rfl⟩,
    (stderr_allowlist
      ⟨true, true, .content "{}", true, .ok ⟨0, "", possible_stderr "DEV"⟩⟩
      ⟨0, "", possible_stderr "DEV"⟩ "{}" rfl rfl rfl rfl rfl rfl rfl).1.mpr
      (Or.inr (Or.inl rfl))⟩

/-- **C9.** With the project descriptor present and a usable output
directory: a read failure on an opened `targets.txt` fails the compile
step with `ReadingTargets`; a successful read resolves the entry-point
list to the contents split on newlines; only when the manifest cannot
be opened (it is absent) does the list default to `["Main.elm"]`. -/
theorem targets_manifest_resolution (env : CompileEnv) (config : Config)
    (contents : String)
    (hod1 : env.outDirExists = true) (hod2 : env.outDirIsDir = true)
    (helm : env.elmJsonExists = true)
    (hread : env.targetsFile = some (.error ())) :
    compile env config = .error .ReadingTargets
    ∧ resolveRootFiles (some (.ok contents)) = .ok (splitLines contents)
    ∧ resolveRootFiles none = .ok [("Main.elm" : String)] := by
  refine ⟨?_, rfl, rfl⟩
  simp [compile, resolveRootFiles, hod1, hod2, helm, hread]

theorem targets_manifest_resolution_witness :
    ((sampleCompileEnvReadErr.outDirExists = true
        ∧ sampleCompileEnvReadErr.outDirIsDir = true)
      ∧ sampleCompileEnvReadErr.targetsFile = some (.error ()))
    ∧ compile sampleCompileEnvReadErr cfgPlain = .error .ReadingTargets :=
  ⟨⟨⟨rfl, rfl⟩, rfl⟩,
    (targets_manifest_resolution sampleCompileEnvReadErr cfgPlain "x"
      rfl rfl rfl rfl).1⟩

/-- **C10.** When `targets.txt` ends in a newline or contains a blank
line, the resolved entry-point list is exactly the unfiltered newline
split of its contents, so it contains an empty-string entry, and that
empty string is passed verbatim in the compiler invocation's argument
list. -/
theorem blank_target_lines_reach_compiler (env : CompileEnv) (config : Config)
    (contents : String) (canon : Path)
    (hdata : (∃ xs, contents.data = xs ++ ['\n']) ∨
      ∃ xs ys, contents.data = xs ++ '\n' :: '\n' :: ys)
    (hod1 : env.outDirExists = true) (hod2 : env.outDirIsDir = true)
    (helm : env.elmJsonExists = true)
    (htargets : env.targetsFile = some (.ok contents))
    (hwhich : env.compilerFound = true)
    (hcanon : env.canonicalOutDir = .ok canon) :
    resolveRootFiles env.targetsFile = .ok (splitLines contents)
    ∧ "" ∈ splitLines contents
    ∧ "" ∈ compileArgs (splitLines contents) config.args (canon ++ "/elm.js")
    ∧ compile env config
      = compilePostInvocation
          (env.invoke
            (compileArgs (splitLines contents) config.args (canon ++ "/elm.js"))) := by
  have hmem : "" ∈ splitLines contents := empty_mem_splitLines contents hdata
  refine ⟨by simp [resolveRootFiles, htargets], hmem, ?_, ?_⟩
  · simp [compileArgs, List.mem_append, hmem]
  · simp [compile, resolveRootFiles, hod1, hod2, helm, htargets, hwhich, hcanon]

theorem blank_target_lines_reach_compiler_witness :
    (("a\n" : String).data = ['a'] ++ ['\n'])
    ∧ "" ∈ splitLines "a\n"
    ∧ "" ∈ compileArgs (splitLines "a\n") [] ("/c" ++ "/elm.js") :=
  ⟨rfl,
    (blank_target_lines_reach_compiler sampleCompileEnvTargets cfgPlain "a\n" "/c"
      (Or.inl ⟨['a'], rfl⟩) rfl rfl rfl rfl rfl rfl).2.1,
    (blank_target_lines_reach_compiler sampleCompileEnvTargets cfgPlain "a\n" "/c"
      (Or.inl ⟨['a'], rfl⟩) rfl rfl rfl rfl rfl rfl).2.2.1⟩

theorem allowed_pass_is_expected_failure_witness :
    (wSample.pathExists "suiteA" = true
      ∧ wSample.isDir "suiteA" = true
      ∧ wSample.pathExists (joinPath "suiteA" "elm.json") = true
      ∧ failureAllowed wSample "suiteA" instrAllowed.config = true)
    ∧ compile_and_run wSample "suiteA" (none : Option Path) instrAllowed "tmp"
        (.ok ()) (.ok ()) = .error .ExpectedFailure :=
  ⟨⟨rfl, rfl, rfl, rfl⟩,
    (allowed_pass_is_expected_failure Path wSample "suiteA" none instrAllowed
      "tmp" rfl rfl rfl rfl).1⟩

theorem compile_failure_short_circuits_witness :
    (wSample.pathExists "s" = true ∧ wSample.isDir "s" = true
      ∧ wSample.pathExists (joinPath "s" "elm.json") = true)
    ∧ compile_and_run wSample "s" (none : Option Path) instrNoFF "tmp"
        (.error .SuiteDoesNotExist) (.ok ())
      = .error (.CompileFailure (failureAllowed wSample "s" instrNoFF.config)
          .SuiteDoesNotExist) :=
  ⟨⟨rfl, rfl, rfl⟩,
    (compile_failure_short_circuits Path wSample "s" none instrNoFF "tmp"
      .SuiteDoesNotExist (.ok ()) rfl rfl rfl).1⟩

theorem outdir_lifecycle_witness :
    (wSample.pathExists "s" = true ∧ wSample.isDir "s" = true
      ∧ wSample.pathExists (joinPath "s" "elm.json") = true)
    ∧ compile_and_run wSample "s" (none : Option Path) instrNoFF "tmp"
        (.ok ()) (.error (.Runtime ⟨1, "", ""⟩))
      = .error (.RunFailure (failureAllowed wSample "s" instrNoFF.config)
          (OutDir.Persistent "tmp") (.Runtime ⟨1, "", ""⟩)) :=
  ⟨⟨rfl, rfl, rfl⟩,
    (outdir_lifecycle Path wSample "s" none instrNoFF "tmp" "d"
      (.Runtime ⟨1, "", ""⟩) .SuiteDoesNotExist "q" rfl rfl rfl).1⟩

/-- **C1 (counterexample).** With fail-fast enabled and suites
`[A(fail, not-allowed), B(pass), C(pass)]`, the batch runner's output
sequence is empty: `take_while` consumes but does not yield the first
failing pair, so `A`'s pair is *not* emitted, contrary to the claim
that the sequence contains exactly `A`'s pair. -/
theorem fail_fast_drops_failing_pair :
    compile_and_run_suites instrFF outcomeABC ["A", "B", "C"] = []
    ∧ compile_and_run_suites instrFF outcomeABC ["A", "B", "C"]
      ≠ [("A", .error (.CompileFailure false .SuiteDoesNotExist))] :=
  ⟨rfl, fun h => List.cons_ne_nil _ _ h.symm⟩

theorem compile_and_run_suites_cons {P : Type} (instructions : Instructions)
    (outcome : Path → Except (CompileAndRunError P) Unit)
    (s : Path) (ss : List Path) :
    compile_and_run_suites instructions outcome (s :: ss)
      = if instructions.fail_fast && suiteFailed (outcome s) then []
        else (s, outcome s) :: compile_and_run_suites instructions outcome ss := by
  cases hff : instructions.fail_fast <;> cases hsf : suiteFailed (outcome s) <;>
    simp [compile_and_run_suites, List.takeWhile_cons, hff, hsf]

/-- **C1 (amended).** With fail-fast disabled the batch runner emits one
pair per input suite in input order.  With fail-fast enabled it emits
the pairs of the longest failure-free prefix of the input: it stops at
the first suite whose outcome is failed and that suite's pair is dropped,
not emitted. -/
theorem fail_fast_truncation (P : Type) (instructions : Instructions)
    (outcome : Path → Except (CompileAndRunError P) Unit)
    (suites : List Path) :
    (instructions.fail_fast = false →
      compile_and_run_suites instructions outcome suites
        = suites.map fun s => (s, outcome s))
    ∧ (instructions.fail_fast = true →
      compile_and_run_suites instructions outcome suites
        = (suites.takeWhile fun s => !suiteFailed (outcome s)).map
            fun s => (s, outcome s)) := by
  induction suites with
  | nil => exact ⟨fun _ => rfl, fun _ => rfl⟩
  | cons s ss ih =>
    constructor
    · intro h
      rw [compile_and_run_suites_cons, h]
      simp [ih.1 h]
    · intro h
      rw [compile_and_run_suites_cons, h]
      by_cases hs : suiteFailed (outcome s) = true
      · simp [hs, List.takeWhile_cons]
      · simp only [Bool.not_eq_true] at hs
        simp [hs, List.takeWhile_cons, ih.2 h]

theorem fail_fast_truncation_witness :
    (instrFF.fail_fast = true ∧ instrNoFF.fail_fast = false)
    ∧ compile_and_run_suites instrFF outcomeABC ["A", "B", "C"]
      = (((["A", "B", "C"] : List Path).takeWhile
          fun s => !suiteFailed (outcomeABC s)).map fun s => (s, outcomeABC s))
    ∧ compile_and_run_suites instrNoFF outcomeABC ["A", "B", "C"]
      = ((["A", "B", "C"] : List Path).map fun s => (s, outcomeABC s)) :=
  ⟨⟨rfl, rfl⟩,
    (fail_fast_truncation Path instrFF outcomeABC ["A", "B", "C"]).2 rfl,
    (fail_fast_truncation Path instrNoFF outcomeABC ["A", "B", "C"]).1 rfl⟩

/-- **C2 (counterexample).** The `failed` flag is `true` for an
`ExpectedFailure` outcome, while the claimed characterization — true
exactly for a non-allowed `CompileFailure`/`RunFailure` — gives
`false` there. -/
theorem expected_failure_counts_as_failed :
    suiteFailed (.error .ExpectedFailure : Except (CompileAndRunError Path) Unit)
      = true
    ∧ specFailedFlag
        (.error .ExpectedFailure : Except (CompileAndRunError Path) Unit)
      = false :=
  ⟨rfl, rfl⟩

/-- **C2 (amended).** The `failed` flag is false exactly for a success
or an allowed `CompileFailure`/`RunFailure`; every other error —
`ExpectedFailure` and the three suite-validation errors included —
counts as failed. -/
theorem failed_flag_characterization (P : Type)
    (res : Except (CompileAndRunError P) Unit) :
    suiteFailed res = amendedFailedFlag res
    ∧ suiteFailed
        (.error .ExpectedFailure : Except (CompileAndRunError P) Unit)
      = true := by
  refine ⟨?_, rfl⟩
  cases res with
  | ok u => rfl
  | error e =>
    cases e with
    | SuiteNotExist => rfl
    | SuiteNotDir => rfl
    | SuiteNotElm => rfl
    | ExpectedFailure => rfl
    | CompileFailure a r => cases a <;> rfl
    | RunFailure a od r => cases a <;> rfl

end ElmTorture
